import Mathlib

/-!
Shallow embedding of the `graph` package of arclabs561/pkgrank: the edge
model (`NodeKey`, `EdgeKey`, `Edge` with its four variants), the mergeable
`Graph` fragment with `AddEdge`/`Add`, and the `ImportGraph` centrality
wrapper over gonum's simple weighted directed graph.

Modelling conventions:
- Go `float64` edge weights are modelled as `ℚ`; the program only ever sets
  weight 1 and adds weights, and on the small integral values exercised here
  IEEE-754 addition agrees with exact rational addition.
- Go maps are modelled as association lists with replace-on-insert updates;
  the theorems below do not depend on map iteration order (each key of the
  iterated map is handled independently).
- `log.Fatal` (process abort) is modelled by returning `none`.
- Go edges are pointers (`*DirectedEdge` etc.); the one place where this
  aliasing is observable is `Graph.Add`, whose default merge function mutates
  the incoming edge object in place, an object that the argument fragment's
  edge map still points to. `Graph.add` therefore returns, alongside the
  updated receiver and the overlap count, the post-call state of the argument
  fragment's edge map.
-/

/-- `NodeKey`: opaque identifier of a node, equality by `ID` string. -/
structure NodeKey where
  ID : String
deriving DecidableEq, Repr

/-- `EdgeKey`: composite key `(container, id)` identifying an edge. -/
structure EdgeKey where
  container : String
  id : String
deriving DecidableEq, Repr

/-- The edge variant tags (`EdgeTypeBase`, `EdgeTypeDirected`, ...). -/
inductive EdgeType where
  | base
  | directed
  | undirected
  | hyper
deriving DecidableEq, Repr

/-- The `Edge` interface's four implementations (`BaseEdge`, `DirectedEdge`,
`UndirectedEdge`, `HyperEdge`), each carrying its key and weight. -/
inductive Edge where
  | base (key : EdgeKey) (weight : ℚ)
  | directed (key : EdgeKey) (weight : ℚ) (src dst : NodeKey)
  | undirected (key : EdgeKey) (weight : ℚ) (left right : NodeKey)
  | hyper (key : EdgeKey) (weight : ℚ) (unorderedSet : List NodeKey)
deriving DecidableEq, Repr

/-- `Edge.Key()`. -/
def Edge.key : Edge → EdgeKey
  | .base k _ => k
  | .directed k _ _ _ => k
  | .undirected k _ _ _ => k
  | .hyper k _ _ => k

/-- `Edge.Weight()`. -/
def Edge.weight : Edge → ℚ
  | .base _ w => w
  | .directed _ w _ _ => w
  | .undirected _ w _ _ => w
  | .hyper _ w _ => w

/-- `Edge.EdgeType()`. -/
def Edge.edgeType : Edge → EdgeType
  | .base _ _ => .base
  | .directed _ _ _ _ => .directed
  | .undirected _ _ _ _ => .undirected
  | .hyper _ _ _ => .hyper

/-- `Edge.Valid()`: `BaseEdge.Valid` and `UndirectedEdge` (which inherits it)
always succeed; `DirectedEdge.Valid` requires both endpoint IDs non-empty;
`HyperEdge.Valid` requires at least one member. `some msg` is the returned
error. -/
def Edge.valid : Edge → Option String
  | .base _ _ => none
  | .directed _ _ src dst =>
    if src.ID = "" then some "invalid src"
    else if dst.ID = "" then some "invalid dst"
    else none
  | .undirected _ _ _ _ => none
  | .hyper _ _ ns => if ns = [] then some "hyperedge must have at least one node" else none

/-- `NewDirectedEdge(container, srcID, dstID)`: key id is `src->dst`, weight 1. -/
def NewDirectedEdge (container srcID dstID : String) : Edge :=
  .directed ⟨container, srcID ++ "->" ++ dstID⟩ 1 ⟨srcID⟩ ⟨dstID⟩

/-- Lookup in the `map[EdgeKey]Edge` model. -/
def lookupEdge : List (EdgeKey × Edge) → EdgeKey → Option Edge
  | [], _ => none
  | (k, e) :: rest, key => if k = key then some e else lookupEdge rest key

/-- Map store `m[k] = e`: replace the entry for `k` in place, else append. -/
def insertEdge : List (EdgeKey × Edge) → EdgeKey → Edge → List (EdgeKey × Edge)
  | [], key, e => [(key, e)]
  | (k, e0) :: rest, key, e =>
    if k = key then (key, e) :: rest else (k, e0) :: insertEdge rest key e

/-- The `Graph` fragment: its container, the containers already folded in via
`Add`, its nodes (never populated by the edge-insertion path) and its edges. -/
structure Graph where
  Container : String
  AddedContainers : List String
  Nodes : List NodeKey
  Edges : List (EdgeKey × Edge)
deriving DecidableEq, Repr

/-- `Graph.Order()`: number of nodes. -/
def Graph.Order (f : Graph) : Nat := f.Nodes.length

/-- `Graph.Size()`: number of edges. -/
def Graph.Size (f : Graph) : Nat := f.Edges.length

/-- The Go zero value `graph.Graph{}` used in the tests. -/
def Graph.empty : Graph := ⟨"", [], [], []⟩

/-- Result of a non-fatal `Graph.AddEdge` call: the updated graph, the
returned `existedBefore` boolean, the error messages reported via
`log.Error`, and the edge object stored into the map (`none` when the
`Base`-variant rejection returned without storing). -/
structure AddEdgeOut where
  graph : Graph
  existed : Bool
  errors : List String
  stored : Option Edge
deriving DecidableEq, Repr

/-- `Graph.AddEdge(edge)` with `DefaultAddEdgeOptions`:
- a `Base`-variant edge is reported and not inserted, returning `false`;
- an invalid edge is reported but still inserted;
- if an edge with the same key exists, a differing variant is `log.Fatal`
  (modelled `none`); otherwise the default merge applies: for a directed
  incoming edge its weight is increased by the previous edge's weight, any
  other variant is `log.Fatal`; the (possibly merged) incoming edge is stored
  at its key and `true` is returned. -/
def Graph.addEdge (f : Graph) (e : Edge) : Option AddEdgeOut :=
  if e.edgeType = EdgeType.base then
    some ⟨f, false, ["cannot add base edges"], none⟩
  else
    let errs := match e.valid with
      | some msg => [msg]
      | none => []
    match lookupEdge f.Edges e.key with
    | none =>
      some ⟨{ f with Edges := insertEdge f.Edges e.key e }, false, errs, some e⟩
    | some prev =>
      if prev.edgeType ≠ e.edgeType then none
      else
        match e with
        | .directed k w src dst =>
          let merged := Edge.directed k (w + prev.weight) src dst
          some ⟨{ f with Edges := insertEdge f.Edges k merged }, true, errs, some merged⟩
        | _ => none

/-- The container loop of `Graph.Add`: walk `other.AddedContainers`, skipping
containers already in the receiver's set and adding the rest to both the
receiver's set and the `keep` set. Returns the receiver's updated
`AddedContainers` and `keep` (in encounter order). -/
def computeKeep : List String → List String → List String × List String
  | fa, [] => (fa, [])
  | fa, c :: cs =>
    if fa.contains c then computeKeep fa cs
    else
      let r := computeKeep (fa ++ [c]) cs
      (r.1, c :: r.2)

/-- The edge loop of `Graph.Add`: for each edge of the argument fragment,
skip it (counting it as overlap) when its key's container is not in `keep`
and the argument had a non-empty `AddedContainers`; otherwise insert it via
`addEdge`. Accumulates the post-call state of the argument's edge entries:
a merged insertion stores the same mutated edge object the argument's map
points to. -/
def addEdgesLoop (keep : List String) (hasAdded : Bool) :
    Graph → List (EdgeKey × Edge) → List (EdgeKey × Edge) → Int →
    Option (Graph × List (EdgeKey × Edge) × Int)
  | f, [], done, overlap => some (f, done, overlap)
  | f, (k, e) :: rest, done, overlap =>
    if !(keep.contains e.key.container) && hasAdded then
      addEdgesLoop keep hasAdded f rest (done ++ [(k, e)]) (overlap + 1)
    else
      match f.addEdge e with
      | none => none
      | some out =>
        let entry := match out.stored with
          | some stored => (k, stored)
          | none => (k, e)
        addEdgesLoop keep hasAdded out.graph rest (done ++ [entry]) overlap

/-- `Graph.Add(other)`: fold `other` into the receiver. Returns the updated
receiver, the post-call state of `other` (its edge map's entries after the
in-place merge mutations — Go shares the underlying edge objects), and the
returned overlap count (`-1` when `other` had containers but none were new).
`none` models a `log.Fatal` abort inside `AddEdge`. -/
def Graph.add (f other : Graph) : Option (Graph × Graph × Int) :=
  let r := computeKeep f.AddedContainers other.AddedContainers
  let f1 := { f with AddedContainers := r.1 }
  if r.2 = [] ∧ other.AddedContainers ≠ [] then
    some (f1, other, -1)
  else
    match addEdgesLoop r.2 (!other.AddedContainers.isEmpty) f1 other.Edges [] 0 with
    | none => none
    | some (f2, entries, overlap) =>
      some (f2, { other with Edges := entries }, overlap)

/-- Reference fold for the bare-fragment case: insert every edge of the list
into the graph via `addEdge`, with no skipping. -/
def addAllEdges : Graph → List (EdgeKey × Edge) → Option Graph
  | f, [] => some f
  | f, (_, e) :: rest =>
    match f.addEdge e with
    | none => none
    | some out => addAllEdges out.graph rest

/-- `ImportGraph`: wraps gonum's `simple.WeightedDirectedGraph` with the two
label maps. The gonum graph itself is modelled by the next free node id
(`NewNode` allocates increasing ids starting at 0 when no node is ever
removed, as here) and the weighted edge list keyed by `(from, to)`. -/
structure ImportGraph where
  nextID : Nat
  idToImport : List (Nat × String)
  importToID : List (String × Nat)
  edges : List (Nat × Nat × ℚ)
deriving DecidableEq, Repr

/-- `NewImportGraph()`. -/
def newImportGraph : ImportGraph := ⟨0, [], [], []⟩

/-- `ImportGraph.Len()`: the gonum graph's node count; nodes are only ever
added via `AddNode`, which keeps it equal to the size of the label maps. -/
def ImportGraph.Len (g : ImportGraph) : Nat := g.idToImport.length

/-- Lookup in a `map[string]int64` model. -/
def lookupID : List (String × Nat) → String → Option Nat
  | [], _ => none
  | (k, v) :: rest, s => if k = s then some v else lookupID rest s

/-- gonum `WeightedDirectedGraph.WeightedEdge(uid, vid)`: the weight of the
stored edge from `uid` to `vid`, if one exists. -/
def lookupWeight : List (Nat × Nat × ℚ) → Nat → Nat → Option ℚ
  | [], _, _ => none
  | (u, v, w) :: rest, uid, vid =>
    if u = uid ∧ v = vid then some w else lookupWeight rest uid vid

/-- Replace the stored weight of the `(uid, vid)` edge, else append it. -/
def upsertWeight : List (Nat × Nat × ℚ) → Nat → Nat → ℚ → List (Nat × Nat × ℚ)
  | [], uid, vid, w => [(uid, vid, w)]
  | (u, v, w0) :: rest, uid, vid, w =>
    if u = uid ∧ v = vid then (uid, vid, w) :: rest
    else (u, v, w0) :: upsertWeight rest uid vid w

/-- Modelled from the gonum library (not vendored under `src/`):
`simple.WeightedDirectedGraph.SetWeightedEdge` panics ("adding self edge")
when the edge's two endpoint ids are equal, and otherwise stores the edge,
replacing any previous edge between the same ids. The panic is modelled by
`none`. -/
def setWeightedEdge (g : ImportGraph) (uid vid : Nat) (w : ℚ) : Option ImportGraph :=
  if uid = vid then none
  else some { g with edges := upsertWeight g.edges uid vid w }

/-- `ImportGraph.AddNode(imp)`: idempotently returns the node id for the
label, allocating a fresh node and registering both mappings when absent. -/
def ImportGraph.addNode (g : ImportGraph) (imp : String) : ImportGraph × Nat :=
  match lookupID g.importToID imp with
  | some id => (g, id)
  | none =>
    let id := g.nextID
    ({ g with
        nextID := id + 1
        idToImport := g.idToImport ++ [(id, imp)]
        importToID := g.importToID ++ [(imp, id)] }, id)

/-- `ImportGraph.UpdateEdge(imp1, imp2)`: ensure both labels have nodes, then
store an edge of weight 1, or weight `old + 1` if an edge between the two
node ids already exists. `none` models the gonum self-edge panic. -/
def ImportGraph.updateEdge (g : ImportGraph) (imp1 imp2 : String) : Option ImportGraph :=
  let r1 := g.addNode imp1
  let r2 := r1.1.addNode imp2
  let w : ℚ := match lookupWeight r2.1.edges r1.2 r2.2 with
    | none => 1
    | some wOld => wOld + 1
  setWeightedEdge r2.1 r1.2 r2.2 w

/-- The comparison used to model `sort.Slice` with `less(i,j) = score_i >
score_j`: the result is sorted with scores non-increasing; the order among
equal scores is unspecified in Go (`sort.Slice` is unstable), and the model
fixes one admissible order. -/
def scoreGE (a b : String × ℚ) : Prop := b.2 ≤ a.2

instance : DecidableRel scoreGE := fun a b => inferInstanceAs (Decidable (b.2 ≤ a.2))

instance : IsTotal (String × ℚ) scoreGE := ⟨fun a b => le_total b.2 a.2⟩

instance : IsTrans (String × ℚ) scoreGE := ⟨fun _ _ _ h1 h2 => le_trans h2 h1⟩

/-- `ImportGraph.Centrality()` parameterised by the PageRank score function:
gonum's `network.PageRank(g, 0.85, 0.0001)` returns one floating-point score
per node of the graph; its iterative computation is abstracted as `pr`
assigning a score to each node id. An empty graph returns empty results;
otherwise every node's `(label, score)` pair is collected and sorted by
descending score, and the two index-aligned slices are returned. -/
def ImportGraph.centrality (g : ImportGraph) (pr : Nat → ℚ) : List String × List ℚ :=
  if g.Len = 0 then ([], [])
  else
    let sorted := List.insertionSort scoreGE (g.idToImport.map (fun p => (p.2, pr p.1)))
    (sorted.map Prod.fst, sorted.map Prod.snd)

/-- The labels of an `ImportGraph`, one per node. -/
def ImportGraph.labels (g : ImportGraph) : List String := g.idToImport.map Prod.snd

/-- The receiver of the `TestGraphFactAdd` scenario: a Go zero-value graph
with `A->B` and `B->C` added (container `""`). -/
def scenarioReceiver : Option Graph := do
  let o1 ← Graph.empty.addEdge (NewDirectedEdge "" "A" "B")
  let o2 ← o1.graph.addEdge (NewDirectedEdge "" "B" "C")
  pure o2.graph

/-- The merged fragment of the `TestGraphFactAdd` scenario: a Go zero-value
graph with `A->B` and `A->C` added (container `""`). -/
def scenarioFragment : Option Graph := do
  let o1 ← Graph.empty.addEdge (NewDirectedEdge "" "A" "B")
  let o2 ← o1.graph.addEdge (NewDirectedEdge "" "A" "C")
  pure o2.graph

/-- The `TestGraphFactAdd` scenario: merge the fragment into the receiver;
both `AddedContainers` sets are empty. Produces the updated receiver, the
post-merge state of the fragment, and the overlap count. -/
def mergeScenario : Option (Graph × Graph × Int) := do
  let f ← scenarioReceiver
  let g ← scenarioFragment
  f.add g

/-- Looking up the key just stored finds the stored edge. -/
theorem lookupEdge_insertEdge_self (E : List (EdgeKey × Edge)) (k : EdgeKey) (e : Edge) :
    lookupEdge (insertEdge E k e) k = some e := by
  induction E with
  | nil => simp [insertEdge, lookupEdge]
  | cons p rest ih =>
    obtain ⟨k0, e0⟩ := p
    by_cases h : k0 = k
    · simp [insertEdge, lookupEdge, h]
    · simp [insertEdge, lookupEdge, h, ih]

/-- If every container of the walked list is already present, the container
loop changes nothing and keeps nothing. -/
theorem computeKeep_contained (cs : List String) : ∀ fa : List String,
    (∀ c ∈ cs, c ∈ fa) → computeKeep fa cs = (fa, []) := by
  induction cs with
  | nil => intro fa _; rfl
  | cons c cs ih =>
    intro fa h
    have hc : fa.contains c = true := by
      simpa using h c (by simp)
    simp only [computeKeep, hc, if_pos]
    exact ih fa (fun x hx => h x (by simp [hx]))

/-- With `hasAdded = false` the edge loop of `Add` never skips: its graph
result and overlap agree with the plain `addAllEdges` fold. -/
theorem addEdgesLoop_no_skip (keep : List String) (es : List (EdgeKey × Edge)) :
    ∀ (f : Graph) (done : List (EdgeKey × Edge)) (ov : Int),
    (addEdgesLoop keep false f es done ov).map (fun r => (r.1, r.2.2)) =
      (addAllEdges f es).map (fun g2 => (g2, ov)) := by
  induction es with
  | nil => intro f done ov; rfl
  | cons p rest ih =>
    intro f done ov
    obtain ⟨k, e⟩ := p
    simp only [addEdgesLoop, addAllEdges, Bool.and_false, Bool.false_eq_true, if_false]
    cases h : f.addEdge e with
    | none => rfl
    | some out => simp [ih]

/-- Appending a fresh binding makes it the one found. -/
theorem lookupID_append_self (A : List (String × Nat)) (l : String) (n : Nat)
    (h : lookupID A l = none) : lookupID (A ++ [(l, n)]) l = some n := by
  induction A with
  | nil => simp [lookupID]
  | cons p rest ih =>
    obtain ⟨k, v⟩ := p
    by_cases hk : k = l
    · simp [lookupID, hk] at h
    · simp only [lookupID, hk, if_false, List.cons_append] at h ⊢
      exact ih h

/-- C6: adding an edge of the abstract `Base` variant reports an error,
leaves the graph (in particular its edge map) unchanged, stores nothing, and
returns `false`. -/
theorem addEdge_base_rejected (g : Graph) (e : Edge) (h : e.edgeType = EdgeType.base) :
    g.addEdge e = some ⟨g, false, ["cannot add base edges"], none⟩ := by
  simp [Graph.addEdge, h]

/-- Witness for `addEdge_base_rejected` at a concrete base edge and graph. -/
theorem addEdge_base_rejected_witness :
    (Edge.base ⟨"c", "x"⟩ 1).edgeType = EdgeType.base ∧
      Graph.empty.addEdge (Edge.base ⟨"c", "x"⟩ 1) =
        some ⟨Graph.empty, false, ["cannot add base edges"], none⟩ :=
  ⟨rfl, addEdge_base_rejected Graph.empty (Edge.base ⟨"c", "x"⟩ 1) rfl⟩

/-- C7: a non-`Base` edge that fails validation is reported but still
inserted: whenever `AddEdge` completes (does not hit a `log.Fatal` path), the
validation error is among the reported errors, an edge was stored, and the
edge map afterwards holds exactly the stored edge at the edge's key. -/
theorem addEdge_invalid_still_inserted (g : Graph) (e : Edge) (msg : String)
    (out : AddEdgeOut) (h1 : e.edgeType ≠ EdgeType.base) (h2 : e.valid = some msg)
    (h3 : g.addEdge e = some out) :
    out.errors = [msg] ∧ out.stored.isSome = true ∧
      lookupEdge out.graph.Edges e.key = out.stored := by
  rw [Graph.addEdge, if_neg h1, h2] at h3
  cases hl : lookupEdge g.Edges e.key with
  | none =>
    rw [hl] at h3
    cases h3
    simp [lookupEdge_insertEdge_self]
  | some prev =>
    rw [hl] at h3
    dsimp only at h3
    by_cases ht : prev.edgeType ≠ e.edgeType
    · rw [if_pos ht] at h3; cases h3
    · rw [if_neg ht] at h3
      cases e with
      | directed k w src dst =>
        dsimp only at h3
        injection h3 with h4
        subst h4
        simp [Edge.key, lookupEdge_insertEdge_self]
      | base k w => simp at h3
      | undirected k w l r => simp at h3
      | hyper k w ns => simp at h3

/-- The result of adding the invalid directed edge `A -> ""` (empty dst) to
the empty graph: the error is reported and the edge is stored anyway. -/
def invalidEdgeOut : AddEdgeOut :=
  ⟨⟨"", [], [], [(⟨"c", "A->"⟩, NewDirectedEdge "c" "A" "")]⟩, false,
    ["invalid dst"], some (NewDirectedEdge "c" "A" "")⟩

/-- Witness for `addEdge_invalid_still_inserted` at the invalid directed edge
`A -> ""` on the empty graph. -/
theorem addEdge_invalid_witness :
    invalidEdgeOut.errors = ["invalid dst"] ∧ invalidEdgeOut.stored.isSome = true ∧
      lookupEdge invalidEdgeOut.graph.Edges (NewDirectedEdge "c" "A" "").key =
        invalidEdgeOut.stored :=
  addEdge_invalid_still_inserted Graph.empty (NewDirectedEdge "c" "A" "") "invalid dst"
    invalidEdgeOut (by decide) (by decide) (by decide)

/-- C8: `Centrality()` on an empty graph (zero nodes) returns empty results
for any PageRank score assignment, instead of failing. -/
theorem centrality_empty (g : ImportGraph) (pr : Nat → ℚ) (h : g.Len = 0) :
    g.centrality pr = ([], []) := by
  simp [ImportGraph.centrality, h]

/-- Witness for `centrality_empty` at the freshly constructed graph. -/
theorem centrality_empty_witness :
    newImportGraph.Len = 0 ∧ newImportGraph.centrality (fun _ => 0) = ([], []) :=
  ⟨rfl, centrality_empty newImportGraph (fun _ => 0) rfl⟩

/-- C10: `UpdateEdge` with the same label on both sides always hits the
modelled gonum self-edge panic (both `AddNode` calls return the same node
id, and `SetWeightedEdge` rejects an edge whose endpoints coincide), for
every graph state and every label. -/
theorem updateEdge_self_loop_panics (g : ImportGraph) (l : String) :
    g.updateEdge l l = none := by
  unfold ImportGraph.updateEdge ImportGraph.addNode
  cases hl : lookupID g.importToID l with
  | some id => simp [hl, setWeightedEdge]
  | none => simp [hl, lookupID_append_self g.importToID l g.nextID hl, setWeightedEdge]

/-- C1 counterexample: inserting the directed self-edge `A->A` twice via
`ImportGraph.UpdateEdge` with the same `(from, to)` label pair does not leave
an edge of weight 2 — the very first call already hits the modelled gonum
self-edge panic, so no graph state results at all. -/
theorem updateEdge_twice_self_loop_no_edge :
    ((newImportGraph.updateEdge "A" "A").bind fun g1 => g1.updateEdge "A" "A") = none := by
  decide

/-- C1 (amended): a directed edge inserted twice with weight 1 ends at weight
2, both via `Graph.AddEdge` (for any edge key not yet present) and via
`ImportGraph.UpdateEdge` (for any two distinct labels, starting from a fresh
graph); the merge accumulates weights instead of replacing them. -/
theorem insert_twice_weight_two (g : Graph) (c a b x y : String)
    (h1 : lookupEdge g.Edges (NewDirectedEdge c a b).key = none) (h2 : x ≠ y) :
    (((g.addEdge (NewDirectedEdge c a b)).bind fun o1 =>
        o1.graph.addEdge (NewDirectedEdge c a b)).map fun o2 =>
        (lookupEdge o2.graph.Edges (NewDirectedEdge c a b).key).map Edge.weight)
      = some (some 2) ∧
    (((newImportGraph.updateEdge x y).bind fun g1 => g1.updateEdge x y).map
        fun g2 => lookupWeight g2.edges 0 1) = some (some 2) := by
  constructor
  · simp only [Graph.addEdge, NewDirectedEdge, Edge.edgeType, Edge.key] at h1 ⊢
    rw [h1]
    simp [lookupEdge_insertEdge_self, Edge.weight]
    norm_num
  · simp [ImportGraph.updateEdge, ImportGraph.addNode, newImportGraph, lookupID,
      lookupWeight, upsertWeight, setWeightedEdge, h2]
    norm_num

/-- Witness for `insert_twice_weight_two` at the concrete edge `A->B`. -/
theorem insert_twice_weight_two_witness :
    (lookupEdge Graph.empty.Edges (NewDirectedEdge "" "A" "B").key = none ∧
      "A" ≠ "B") ∧
    ((((Graph.empty.addEdge (NewDirectedEdge "" "A" "B")).bind fun o1 =>
        o1.graph.addEdge (NewDirectedEdge "" "A" "B")).map fun o2 =>
        (lookupEdge o2.graph.Edges (NewDirectedEdge "" "A" "B").key).map Edge.weight)
      = some (some 2) ∧
    (((newImportGraph.updateEdge "A" "B").bind fun g1 => g1.updateEdge "A" "B").map
        fun g2 => lookupWeight g2.edges 0 1) = some (some 2)) :=
  ⟨⟨by decide, by decide⟩,
    insert_twice_weight_two Graph.empty "" "A" "B" "A" "B" (by decide) (by decide)⟩

/-- C2 (amended): merging a fragment whose non-empty `AddedContainers` set is
contained in the receiver's is a complete no-op on the receiver: the call
returns the receiver unchanged (so `Size()` and `Order()` are unchanged and
no edge was inserted), leaves the fragment untouched, and returns the
sentinel `-1` ("nothing new"). -/
theorem add_redundant_subset_noop (g F : Graph) (h1 : F.AddedContainers ≠ [])
    (h2 : ∀ c ∈ F.AddedContainers, c ∈ g.AddedContainers) :
    Graph.add g F = some (g, F, -1) := by
  simp [Graph.add, computeKeep_contained F.AddedContainers g.AddedContainers h2, h1]

/-- The receiver of the concrete redundant-merge input: container `c` already
folded in, no edges. -/
def redundantReceiver : Graph := ⟨"", ["c"], [], []⟩

/-- The concrete redundant fragment: its only container `c` is already in the
receiver's set, and it carries one edge. -/
def redundantFragment : Graph :=
  ⟨"", ["c"], [], [(⟨"c", "A->B"⟩, NewDirectedEdge "c" "A" "B")]⟩

/-- Witness for `add_redundant_subset_noop` at the concrete redundant
fragment. -/
theorem add_redundant_subset_noop_witness :
    (redundantFragment.AddedContainers ≠ [] ∧
      ∀ c ∈ redundantFragment.AddedContainers, c ∈ redundantReceiver.AddedContainers) ∧
    Graph.add redundantReceiver redundantFragment =
      some (redundantReceiver, redundantFragment, -1) :=
  ⟨⟨by decide, by decide⟩,
    add_redundant_subset_noop redundantReceiver redundantFragment (by decide) (by decide)⟩

/-- C2 counterexample: for the concrete redundant fragment with one edge, the
value returned by `Add` is not the fragment's full edge count (1) — it is the
sentinel `-1`. -/
theorem add_redundant_overlap_not_edge_count :
    (Graph.add redundantReceiver redundantFragment).map (fun r => r.2.2) ≠
      some ((redundantFragment.Size : Int)) ∧
    (Graph.add redundantReceiver redundantFragment).map (fun r => r.2.2) = some (-1) := by
  decide

/-- C3: the reference merge scenario (`TestGraphFactAdd`): receiver `A->B`,
`B->C` (weight 1 each) merged with fragment `A->B`, `A->C` (weight 1 each,
no `AddedContainers` overlap with the receiver) yields a receiver of
`Size()` 3 with `A->B` at weight 2, `B->C` at weight 1 and `A->C` at
weight 1. -/
theorem merge_scenario_reference :
    (mergeScenario.map fun r =>
      (r.1.Size,
       (lookupEdge r.1.Edges ⟨"", "A->B"⟩).map Edge.weight,
       (lookupEdge r.1.Edges ⟨"", "B->C"⟩).map Edge.weight,
       (lookupEdge r.1.Edges ⟨"", "A->C"⟩).map Edge.weight)) =
    some (3, some 2, some 1, some 1) := by
  simp [mergeScenario, scenarioReceiver, scenarioFragment, Graph.add, Graph.addEdge,
    addEdgesLoop, computeKeep, NewDirectedEdge, Edge.edgeType, Edge.valid, Edge.key,
    Edge.weight, lookupEdge, insertEdge, Graph.Size, Graph.empty]
  norm_num

/-- C5: merging mutates the published fragment. Before the merge the
fragment's `A->B` edge has weight 1; after `Add` the same fragment's edge map
reports weight 2 for it — the default merge function adds the previous
weight onto the incoming edge object, which the fragment still owns, even
though its own documentation says only the receiver's edge is modified. -/
theorem add_mutates_published_fragment :
    (scenarioFragment.map fun g => (lookupEdge g.Edges ⟨"", "A->B"⟩).map Edge.weight) =
      some (some 1) ∧
    (mergeScenario.map fun r => (lookupEdge r.2.1.Edges ⟨"", "A->B"⟩).map Edge.weight) =
      some (some 2) := by
  simp [mergeScenario, scenarioReceiver, scenarioFragment, Graph.add, Graph.addEdge,
    addEdgesLoop, computeKeep, NewDirectedEdge, Edge.edgeType, Edge.valid, Edge.key,
    Edge.weight, lookupEdge, insertEdge, Graph.empty]
  norm_num

/-- C4: merging a bare fragment (empty `AddedContainers`) never skips an
edge: the receiver result and fatality agree with the unconditional
`addAllEdges` fold over every fragment edge, and the overlap count is 0. -/
theorem add_bare_fragment (g F : Graph) (h : F.AddedContainers = []) :
    (Graph.add g F).map (fun r => (r.1, r.2.2)) =
      (addAllEdges g F.Edges).map (fun g2 => (g2, 0)) := by
  have key := addEdgesLoop_no_skip [] F.Edges g [] 0
  simp only [Graph.add, h, computeKeep, List.isEmpty_nil, Bool.not_true, ne_eq,
    not_true_eq_false, and_false, if_false]
  cases hm : addEdgesLoop [] false g F.Edges [] 0 with
  | none =>
    rw [hm] at key
    simpa using key
  | some r =>
    obtain ⟨f2, entries, ov⟩ := r
    rw [hm] at key
    simpa using key

/-- The concrete bare fragment used to witness the bare-merge theorem. -/
def bareFragment : Graph := ⟨"bare", [], [], [(⟨"", "A->B"⟩, NewDirectedEdge "" "A" "B")]⟩

/-- Witness for `add_bare_fragment` at a concrete bare fragment. -/
theorem add_bare_fragment_witness :
    bareFragment.AddedContainers = [] ∧
    (Graph.add Graph.empty bareFragment).map (fun r => (r.1, r.2.2)) =
      (addAllEdges Graph.empty bareFragment.Edges).map (fun g2 => (g2, 0)) :=
  ⟨rfl, add_bare_fragment Graph.empty bareFragment rfl⟩

/-- Pairing the two projections back up recovers the list. -/
theorem zip_fst_snd (l : List (String × ℚ)) :
    (l.map Prod.fst).zip (l.map Prod.snd) = l := by
  induction l with
  | nil => rfl
  | cons p rest ih => simp [ih]

/-- C9: on a non-empty graph, `Centrality()` returns one label and one score
per node: both slices have length `Len()`, the labels are a permutation of
the graph's labels, the scores are in non-increasing order, and the two
slices are index-aligned (zipping them re-yields each node's
`(label, score)` pair, up to permutation). -/
theorem centrality_complete_sorted (g : ImportGraph) (pr : Nat → ℚ) (h : g.Len ≠ 0) :
    (g.centrality pr).1.length = g.Len ∧
    (g.centrality pr).2.length = g.Len ∧
    (g.centrality pr).1.Perm g.labels ∧
    List.Sorted (fun a b : ℚ => b ≤ a) (g.centrality pr).2 ∧
    ((g.centrality pr).1.zip ((g.centrality pr).2)).Perm
      (g.idToImport.map fun p => (p.2, pr p.1)) := by
  have hperm := List.perm_insertionSort scoreGE (g.idToImport.map fun p => (p.2, pr p.1))
  have hsort := List.sorted_insertionSort scoreGE (g.idToImport.map fun p => (p.2, pr p.1))
  simp only [ImportGraph.centrality, if_neg h]
  refine ⟨?_, ?_, ?_, ?_, ?_⟩
  · simp [ImportGraph.Len]
  · simp [ImportGraph.Len]
  · have := hperm.map Prod.fst
    simpa [ImportGraph.labels, List.map_map, Function.comp] using this
  · exact List.Pairwise.map Prod.snd (fun a b hab => hab) hsort
  · rw [zip_fst_snd]
    exact hperm

/-- The one-node graph used to witness the non-empty centrality theorem. -/
def oneNodeGraph : ImportGraph := (newImportGraph.addNode "A").1

/-- Witness for `centrality_complete_sorted` at a concrete one-node graph
with the constant score assignment. -/
theorem centrality_complete_sorted_witness :
    oneNodeGraph.Len ≠ 0 ∧
    ((oneNodeGraph.centrality fun _ => 0).1.length = oneNodeGraph.Len ∧
     (oneNodeGraph.centrality fun _ => 0).2.length = oneNodeGraph.Len ∧
     (oneNodeGraph.centrality fun _ => 0).1.Perm oneNodeGraph.labels ∧
     List.Sorted (fun a b : ℚ => b ≤ a) (oneNodeGraph.centrality fun _ => 0).2 ∧
     ((oneNodeGraph.centrality fun _ => 0).1.zip
        ((oneNodeGraph.centrality fun _ => 0).2)).Perm
       (oneNodeGraph.idToImport.map fun p => (p.2, (fun _ => (0 : ℚ)) p.1))) :=
  ⟨by decide, centrality_complete_sorted oneNodeGraph (fun _ => 0) (by decide)⟩
